import Mathlib

/-!
Verification of the sticky-session core of `tomMoulard/oxy`
(`roundrobin/stickysessions.go`).

The Go code is shallowly embedded below:

* `URL`, `Userinfo` model the subset of Go's `net/url.URL` that this
  package reads or writes (`Scheme`, `Opaque`, `User`, `Host`, `Path`,
  `ForceQuery`, `RawQuery`, `Fragment`).
* `urlString` models `url.URL.String()` together with its escaping rules
  (`shouldEscape` for the path, host, user-password and fragment modes).
* `urlParse` models the Go standard library's `url.Parse` for the URL
  shapes this package can meet (absolute and relative forms, userinfo,
  percent-escapes, port validation); bracketed IPv6 hosts and the `./`
  relative-path disambiguation of `String()` are outside the model.
* `hash` is `fmt.Sprintf("%x", fnv1a.HashString64(input))`: a byte-wise
  64-bit FNV-1a over the UTF-8 bytes, rendered as unpadded lowercase hex.
* `StickySession.GetBackend`, `StickySession.StickBackend`,
  `StickySession.getBackendURL`, `getCleanServerURL` are translated from
  `stickysessions.go`.  The HTTP request is modelled by its named-cookie
  lookup (`Request`), a response writer by its list of set cookies.

Machine integers are `Nat` with an explicit `% 2 ^ 64` where the Go code
relies on 64-bit wrap-around.
-/

namespace Oxy

/-- Userinfo of a URL: a username and an optional password, mirroring Go's
`url.Userinfo` (with `passwordSet` folded into the `Option`). -/
structure Userinfo where
  username : String
  password : Option String
deriving DecidableEq, Repr

/-- The subset of Go's `url.URL` used by the sticky-session code.  Go's
`Opaque` field is called `opaquePart` here. -/
structure URL where
  scheme : String := ""
  opaquePart : String := ""
  user : Option Userinfo := none
  host : String := ""
  path : String := ""
  forceQuery : Bool := false
  rawQuery : String := ""
  fragment : String := ""
deriving DecidableEq, Repr

/-! ### Bytes and hashing -/

/-- UTF-8 encoding of one character, as byte values. -/
def utf8Bytes (c : Char) : List Nat :=
  let n := c.toNat
  if n < 0x80 then [n]
  else if n < 0x800 then
    [0xC0 ||| (n >>> 6), 0x80 ||| (n &&& 0x3F)]
  else if n < 0x10000 then
    [0xE0 ||| (n >>> 12), 0x80 ||| ((n >>> 6) &&& 0x3F), 0x80 ||| (n &&& 0x3F)]
  else
    [0xF0 ||| (n >>> 18), 0x80 ||| ((n >>> 12) &&& 0x3F),
     0x80 ||| ((n >>> 6) &&& 0x3F), 0x80 ||| (n &&& 0x3F)]

/-- The UTF-8 bytes of a string. -/
def strBytes (s : String) : List Nat :=
  (s.data.map utf8Bytes).flatten

/-- FNV-1a 64-bit offset basis. -/
def fnvOffset64 : Nat := 14695981039346656037

/-- FNV-1a 64-bit prime. -/
def fnvPrime64 : Nat := 1099511628211

/-- One FNV-1a step on a 64-bit accumulator. -/
def fnv1aStep (h b : Nat) : Nat := ((h ^^^ b) * fnvPrime64) % (2 ^ 64)

/-- `fnv1a.HashString64`: byte-wise 64-bit FNV-1a (the unrolling in
`segmentio/fasthash` processes the same bytes in the same order). -/
def fnv1a64 (bs : List Nat) : Nat := bs.foldl fnv1aStep fnvOffset64

/-- Lowercase hexadecimal digit for a value below 16. -/
def hexChar (n : Nat) : Char :=
  if n < 10 then Char.ofNat (48 + n) else Char.ofNat (87 + n)

/-- Digits of `n` in base 16, most significant first, prepended to `acc`;
`fuel` bounds the recursion (16 digits cover every 64-bit value). -/
def toHexAux : Nat → Nat → List Char → List Char
  | 0, _, acc => acc
  | fuel + 1, n, acc =>
    if n = 0 then acc else toHexAux fuel (n / 16) (hexChar (n % 16) :: acc)

/-- `fmt.Sprintf("%x", v)` for a 64-bit value: unpadded lowercase hex. -/
def toHex (n : Nat) : String :=
  if n = 0 then "0" else String.mk (toHexAux 16 n [])

/-- `hash` from stickysessions.go:
`fmt.Sprintf("%x", fnv1a.HashString64(input))`. -/
def hash (input : String) : String := toHex (fnv1a64 (strBytes input))

/-! ### Escaping (Go `net/url` `shouldEscape` / `escape`) -/

/-- Uppercase hexadecimal digit (Go escapes with `"0123456789ABCDEF"`). -/
def hexUpper (n : Nat) : Char :=
  if n < 10 then Char.ofNat (48 + n) else Char.ofNat (55 + n)

/-- `shouldEscape(c, encodePath)` for an ASCII character. -/
def shouldEscapePath (c : Char) : Bool :=
  if c.isAlphanum || c ∈ ['-', '_', '.', '~'] then false
  else if c ∈ ['$', '&', '+', ',', '/', ':', ';', '=', '@'] then false
  else true

/-- `shouldEscape(c, encodeUserPassword)` for an ASCII character. -/
def shouldEscapeUserPassword (c : Char) : Bool :=
  if c.isAlphanum || c ∈ ['-', '_', '.', '~'] then false
  else if c ∈ ['$', '&', '+', ',', ';', '='] then false
  else true

/-- `shouldEscape(c, encodeHost)` for an ASCII character. -/
def shouldEscapeHost (c : Char) : Bool :=
  if c.isAlphanum || c ∈ ['-', '_', '.', '~'] then false
  else if c ∈ ['!', '$', '&', '\'', '(', ')', '*', '+', ',', ';', '=', ':',
               '[', ']', '<', '>', '"'] then false
  else true

/-- `shouldEscape(c, encodeFragment)` for an ASCII character. -/
def shouldEscapeFragment (c : Char) : Bool :=
  if c.isAlphanum || c ∈ ['-', '_', '.', '~'] then false
  else if c ∈ ['$', '&', '+', ',', '/', ':', ';', '=', '?', '@',
               '!', '(', ')', '*'] then false
  else true

/-- Go's `escape`: percent-encode, byte by byte, every byte the mode's
`shouldEscape` rejects (every byte at or above `0x80` is escaped). -/
def escapeBytes (shouldEsc : Char → Bool) (bs : List Nat) : List Char :=
  (bs.map (fun b =>
    if 0x80 ≤ b || shouldEsc (Char.ofNat b) then
      ['%', hexUpper (b / 16), hexUpper (b % 16)]
    else [Char.ofNat b])).flatten

/-- Escape a string under the given mode predicate. -/
def escapeStr (shouldEsc : Char → Bool) (s : String) : String :=
  String.mk (escapeBytes shouldEsc (strBytes s))

/-- `url.Userinfo.String()`: escaped username, then `:password` when a
password is set. -/
def userinfoString (ui : Userinfo) : String :=
  escapeStr shouldEscapeUserPassword ui.username ++
    (match ui.password with
     | some p => ":" ++ escapeStr shouldEscapeUserPassword p
     | none => "")

/-- Model of `url.URL.String()` for the URL shapes of this package (the
`./` prefix Go inserts for a host-less relative path whose first segment
holds a colon is not modelled; every URL this package prints carries a
scheme). -/
def urlString (u : URL) : String :=
  let schemePart := if u.scheme ≠ "" then u.scheme ++ ":" else ""
  let body :=
    if u.opaquePart ≠ "" then u.opaquePart
    else
      let auth :=
        if u.scheme ≠ "" ∨ u.host ≠ "" ∨ u.user.isSome then
          "//" ++
            (match u.user with
             | some ui => userinfoString ui ++ "@"
             | none => "") ++
            (if u.host ≠ "" then escapeStr shouldEscapeHost u.host else "")
        else ""
      let p := escapeStr shouldEscapePath u.path
      let p := if p ≠ "" ∧ p.data.head? ≠ some '/' ∧ u.host ≠ "" then "/" ++ p else p
      auth ++ p
  schemePart ++ body ++
    (if u.forceQuery ∨ u.rawQuery ≠ "" then "?" ++ u.rawQuery else "") ++
    (if u.fragment ≠ "" then "#" ++ escapeStr shouldEscapeFragment u.fragment else "")

/-! ### Model of Go `net/url.Parse` -/

/-- The escaping modes of `net/url` that this model needs. -/
inductive EncMode where
  | path
  | userPassword
  | host
  | fragment
deriving DecidableEq, Repr

/-- Value of a hexadecimal digit character (Go `unhex`). -/
def hexVal (c : Char) : Option Nat :=
  if '0' ≤ c ∧ c ≤ '9' then some (c.toNat - 48)
  else if 'a' ≤ c ∧ c ≤ 'f' then some (c.toNat - 87)
  else if 'A' ≤ c ∧ c ≤ 'F' then some (c.toNat - 55)
  else none

/-- Go `unescape`: percent-decode, rejecting invalid escapes; in host mode
an unescaped ASCII character the host may not hold is rejected as Go's
`InvalidHostError` (escapes decode to the byte's character; the special
host-mode restriction of escapes to bytes at or above `0x80` is not
modelled, no host this package meets carries escapes). -/
def unescape (mode : EncMode) : List Char → Except String (List Char)
  | [] => .ok []
  | '%' :: a :: b :: rest =>
    match hexVal a, hexVal b with
    | some ha, some hb =>
      match unescape mode rest with
      | .ok out => .ok (Char.ofNat (16 * ha + hb) :: out)
      | .error e => .error e
    | _, _ => .error "invalid URL escape"
  | '%' :: _ => .error "invalid URL escape"
  | c :: rest =>
    if mode = .host ∧ c.toNat < 0x80 ∧ shouldEscapeHost c then
      .error "invalid character in host name"
    else
      match unescape mode rest with
      | .ok out => .ok (c :: out)
      | .error e => .error e

/-- Go `split(s, sep, cutc)`: split at the first occurrence of `sep`;
when absent, the whole string and `""`. -/
def splitList (s : List Char) (sep : Char) (cutc : Bool) : List Char × List Char :=
  let pre := s.takeWhile (· ≠ sep)
  match s.dropWhile (· ≠ sep) with
  | [] => (s, [])
  | c :: tail => (pre, if cutc then tail else c :: tail)

/-- Split at the first occurrence of `c` (Go `strings.Cut`), `none` when
absent. -/
def splitFirstAt : List Char → Char → Option (List Char × List Char)
  | [], _ => none
  | x :: rest, c =>
    if x = c then some ([], rest)
    else
      match splitFirstAt rest c with
      | some (pre, suf) => some (x :: pre, suf)
      | none => none

/-- Split at the last occurrence of `c` (Go `strings.LastIndex`), `none`
when absent. -/
def lastSplitAt : List Char → Char → Option (List Char × List Char)
  | [], _ => none
  | x :: rest, c =>
    match lastSplitAt rest c with
    | some (pre, suf) => some ((x :: pre), suf)
    | none => if x = c then some ([], rest) else none

/-- Go `stringContainsCTLByte`, negated: no byte below `0x20` and no
`0x7f` (characters at or above `0x80` expand to bytes at or above `0x80`,
so checking characters is equivalent). -/
def ctlFree (s : List Char) : Bool :=
  s.all (fun c => decide (0x20 ≤ c.toNat) && c.toNat != 0x7f)

/-- Go `getScheme`: peel `scheme:` off the front when the prefix before
the first colon is a valid scheme; a colon at position zero is the
"missing protocol scheme" error; otherwise the input has no scheme. -/
def getSchemeAux (orig : List Char) : List Char → List Char → Except String (String × List Char)
  | _, [] => .ok ("", orig)
  | acc, c :: rest =>
    if c.isAlpha then getSchemeAux orig (acc ++ [c]) rest
    else if c.isDigit ∨ c = '+' ∨ c = '-' ∨ c = '.' then
      if acc = [] then .ok ("", orig) else getSchemeAux orig (acc ++ [c]) rest
    else if c = ':' then
      if acc = [] then .error "missing protocol scheme"
      else .ok (String.mk acc, rest)
    else .ok ("", orig)

/-- Go `validOptionalPort`: empty, or a colon followed by decimal digits. -/
def validOptionalPort : List Char → Bool
  | [] => true
  | ':' :: digits => digits.all Char.isDigit
  | _ => false

/-- Go `validUserinfo`, per character. -/
def validUserinfoChar (c : Char) : Bool :=
  c.isAlphanum ||
    c ∈ ['-', '.', '_', ':', '~', '!', '$', '&', '\'', '(', ')', '*', '+',
         ',', ';', '=', '%', '@']

/-- Go `parseHost` for non-bracketed hosts: validate the optional port,
then unescape in host mode.  Bracketed IPv6 literals are outside the
model. -/
def parseHost (host : List Char) : Except String String :=
  match host with
  | '[' :: _ => .error "model: bracketed (IPv6) hosts are not modelled"
  | _ =>
    let colonPort : List Char :=
      match lastSplitAt host ':' with
      | some (_, after) => ':' :: after
      | none => []
    if ¬ validOptionalPort colonPort then .error "invalid port"
    else
      match unescape .host host with
      | .ok h => .ok (String.mk h)
      | .error e => .error e

/-- Go `parseAuthority`: the userinfo is everything before the last `@`;
it must consist of valid userinfo characters and is percent-decoded, with
an optional `:password` split at the first colon. -/
def parseAuthority (authority : List Char) : Except String (Option Userinfo × String) :=
  match lastSplitAt authority '@' with
  | none =>
    match parseHost authority with
    | .ok h => .ok (none, h)
    | .error e => .error e
  | some (userinfo, hostPart) =>
    match parseHost hostPart with
    | .error e => .error e
    | .ok h =>
      if ¬ userinfo.all validUserinfoChar then .error "net/url: invalid userinfo"
      else
        match splitFirstAt userinfo ':' with
        | none =>
          match unescape .userPassword userinfo with
          | .ok un => .ok (some ⟨String.mk un, none⟩, h)
          | .error e => .error e
        | some (un0, pw0) =>
          match unescape .userPassword un0, unescape .userPassword pw0 with
          | .ok un, .ok pw => .ok (some ⟨String.mk un, some (String.mk pw)⟩, h)
          | .error e, _ => .error e
          | .ok _, .error e => .error e

/-- Does the character list start with `/`? -/
def startsWithSlash : List Char → Bool
  | '/' :: _ => true
  | _ => false

/-- Does the character list start with `//`? -/
def startsWith2Slash : List Char → Bool
  | '/' :: '/' :: _ => true
  | _ => false

/-- Does the character list start with `///`? -/
def startsWith3Slash : List Char → Bool
  | '/' :: '/' :: '/' :: _ => true
  | _ => false

/-- Go `parse(rawURL, viaRequest=false)`, after the fragment has been
split off: control-character check, scheme, query, opaque/rootless form,
authority, path. -/
def parseNoFrag (raw : List Char) : Except String URL :=
  if ¬ ctlFree raw then .error "net/url: invalid control character in URL"
  else if raw = ['*'] then .ok { path := "*" }
  else
    match getSchemeAux raw [] raw with
    | .error e => .error e
    | .ok (scheme0, rest0) =>
      let scheme := String.mk (scheme0.data.map Char.toLower)
      let (rest1, forceQuery, rawQuery) :=
        if rest0.getLast? = some '?' ∧ ¬ rest0.dropLast.contains '?' then
          (rest0.dropLast, true, "")
        else
          let (r, q) := splitList rest0 '?' true
          (r, false, String.mk q)
      if ¬ startsWithSlash rest1 then
        if scheme ≠ "" then
          .ok { scheme := scheme, opaquePart := String.mk rest1,
                forceQuery := forceQuery, rawQuery := rawQuery }
        else
          let (segment, _) := splitList rest1 '/' true
          if segment.contains ':' then
            .error "first path segment in URL cannot contain colon"
          else
            match unescape .path rest1 with
            | .ok p => .ok { scheme := scheme, path := String.mk p,
                             forceQuery := forceQuery, rawQuery := rawQuery }
            | .error e => .error e
      else if (scheme ≠ "" ∨ ¬ startsWith3Slash rest1) ∧ startsWith2Slash rest1 then
        let (authority, rest2) := splitList (rest1.drop 2) '/' false
        match parseAuthority authority with
        | .error e => .error e
        | .ok (user, host) =>
          match unescape .path rest2 with
          | .ok p => .ok { scheme := scheme, user := user, host := host,
                           path := String.mk p, forceQuery := forceQuery,
                           rawQuery := rawQuery }
          | .error e => .error e
      else
        match unescape .path rest1 with
        | .ok p => .ok { scheme := scheme, path := String.mk p,
                         forceQuery := forceQuery, rawQuery := rawQuery }
        | .error e => .error e

/-- Model of Go `url.Parse`: split the fragment off at the first `#`,
parse the rest, then percent-decode the fragment. -/
def urlParse (rawURL : String) : Except String URL :=
  let (u, frag) := splitList rawURL.data '#' true
  match parseNoFrag u with
  | .error e => .error e
  | .ok url =>
    if frag = [] then .ok url
    else
      match unescape .fragment frag with
      | .ok f => .ok { url with fragment := String.mk f }
      | .error e => .error e

/-! ### The sticky-session core (stickysessions.go) -/

/-- `CookieOptions` from stickysessions.go.  `expires` stands for the
opaque `time.Time` value, `sameSite` for Go's `http.SameSite` integer;
field defaults are Go's zero values (the state `NewStickySession` leaves
them in). -/
structure CookieOptions where
  httpOnly : Bool := false
  secure : Bool := false
  path : String := ""
  domain : String := ""
  expires : Int := 0
  maxAge : Int := 0
  sameSite : Int := 0
deriving DecidableEq, Repr

/-- `StickySession` from stickysessions.go. -/
structure StickySession where
  cookieName : String
  options : CookieOptions
deriving DecidableEq, Repr

/-- `NewStickySession`. -/
def NewStickySession (cookieName : String) : StickySession :=
  { cookieName := cookieName, options := {} }

/-- `NewStickySessionWithOptions`. -/
def NewStickySessionWithOptions (cookieName : String) (options : CookieOptions) :
    StickySession :=
  { cookieName := cookieName, options := options }

/-- The fields of Go's `http.Cookie` that `StickBackend` writes. -/
structure Cookie where
  name : String
  value : String
  path : String
  domain : String
  expires : Int
  maxAge : Int
  secure : Bool
  httpOnly : Bool
  sameSite : Int
deriving DecidableEq, Repr

/-- The error values `Request.Cookie` distinguishes: `http.ErrNoCookie`
or any other error. -/
inductive CookieError where
  | errNoCookie
  | other (msg : String)
deriving DecidableEq, Repr

/-- An HTTP request, modelled by its named-cookie lookup
(`req.Cookie(name)` returns the cookie's value or an error). -/
structure Request where
  getCookie : String → Except CookieError String

/-- `http.SetCookie`: append one `Set-Cookie` header to the response,
modelled as the list of cookies set so far. -/
def SetCookie (w : List Cookie) (c : Cookie) : List Cookie := w ++ [c]

/-- `strings.Contains(needle, "://")` — does `s` hold the substring
`://`? -/
def sepAux : List Char → Bool
  | [] => false
  | c :: rest => (c == ':' && startsWith2Slash rest) || sepAux rest

/-- Whether a cookie value holds the legacy scheme delimiter `://`. -/
def hasSchemeSep (s : String) : Bool := sepAux s.data

/-- `getCleanServerURL`: a fresh URL holding only scheme, host and path
(Go leaves every other field at its zero value). -/
def getCleanServerURL (serverURL : URL) : URL :=
  { scheme := serverURL.scheme
    host := serverURL.host
    path := serverURL.path }

/-- Modelled from the spec: the helper `sameURL` called by the legacy
branch of `getBackendURL` is not among the provided sources — only its
caller in stickysessions.go and its tests are.  The in-repo tests
(`TestStickySession_getBackendURL`, cases "With user in haystack but not
in needle" and "With user in needle but not in haystack") pin its
behaviour: two URLs are the same exactly when path, host and scheme
coincide; user-info is not consulted.  The spec's claim that user-info is
"compared literally in this branch" is contradicted by those tests, so
the reconstruction follows the tests. -/
def sameURL (a b : URL) : Bool :=
  a.path == b.path && a.host == b.host && a.scheme == b.scheme

/-- `getBackendURL` from stickysessions.go: an empty haystack never
matches; a needle holding `://` is a legacy raw-address cookie, parsed
and compared with `sameURL` against each server in order; otherwise the
needle is compared against each server's hashed clean URL in order. -/
def StickySession.getBackendURL (_s : StickySession) (needle : String)
    (haystack : List URL) : Option URL :=
  if haystack.length = 0 then none
  else if hasSchemeSep needle then
    match urlParse needle with
    | .error _ => none
    | .ok needleURL => haystack.find? (fun serverURL => sameURL needleURL serverURL)
  else
    haystack.find? (fun serverURL =>
      needle == hash (urlString (getCleanServerURL serverURL)))

/-- `GetBackend` from stickysessions.go: read the named cookie; absence
is `(nil, false, nil)`, any other read error is propagated, and a present
cookie is resolved by `getBackendURL`. -/
def StickySession.GetBackend (s : StickySession) (req : Request)
    (servers : List URL) : Option URL × Bool × Option CookieError :=
  match req.getCookie s.cookieName with
  | .error .errNoCookie => (none, false, none)
  | .error e => (none, false, some e)
  | .ok value =>
    let serverURL := s.getBackendURL value servers
    (serverURL, serverURL.isSome, none)

/-- `StickBackend` from stickysessions.go: set one cookie under the
configured name, valued at the hash of the backend's clean URL, with path
defaulting to `/` and every other attribute taken from the options. -/
def StickySession.StickBackend (s : StickySession) (backend : URL)
    (w : List Cookie) : List Cookie :=
  let opt := s.options
  let cp := if opt.path ≠ "" then opt.path else "/"
  SetCookie w
    { name := s.cookieName
      value := hash (urlString (getCleanServerURL backend))
      path := cp
      domain := opt.domain
      expires := opt.expires
      maxAge := opt.maxAge
      secure := opt.secure
      httpOnly := opt.httpOnly
      sameSite := opt.sameSite }

/-! ### Concrete fixtures (taken from the repository's tests) -/

/-- The backend `http://10.10.10.10/` of the tests. -/
def urlA : URL := { scheme := "http", host := "10.10.10.10", path := "/" }

/-- The backend `https://10.10.10.42/` of the tests. -/
def urlB : URL := { scheme := "https", host := "10.10.10.42", path := "/" }

/-- `urlA` with the user-info `John Doe` of the tests. -/
def urlAUser : URL :=
  { scheme := "http", host := "10.10.10.10", path := "/",
    user := some { username := "John Doe", password := none } }

/-- A sticky session with cookie name `sticky`, as in the tests. -/
def stickyS : StickySession := NewStickySession "sticky"

/-- A request carrying the hashed token of `urlA` under every name. -/
def reqHashA : Request :=
  ⟨fun _ => .ok (hash (urlString (getCleanServerURL urlA)))⟩

/-- A request with no cookie. -/
def reqNoCookie : Request := ⟨fun _ => .error .errNoCookie⟩

/-- A request whose cookie read fails with a non-absence error. -/
def reqReadErr : Request := ⟨fun _ => .error (.other "read failure")⟩

/-- A request carrying the given cookie value under every name. -/
def reqWith (v : String) : Request := ⟨fun _ => .ok v⟩

/-- `urlA` carrying a user, a query, a fragment and `forceQuery`: same
scheme, host and path as `urlA`, every droppable component set. -/
def urlAFull : URL :=
  { scheme := "http", host := "10.10.10.10", path := "/",
    user := some { username := "John Doe", password := none },
    rawQuery := "a=1", fragment := "frag", forceQuery := true }

/-! ### Helper lemmas: the shape of hashed tokens -/

/-- Is `c` a lowercase hexadecimal digit? -/
def isLowerHexChar (c : Char) : Bool :=
  (decide ('0' ≤ c) && decide (c ≤ '9')) || (decide ('a' ≤ c) && decide (c ≤ 'f'))

theorem hexChar_isHex : ∀ n < 16, isLowerHexChar (hexChar n) = true := by decide

theorem toHexAux_hex : ∀ (fuel n : Nat) (acc : List Char),
    acc.all isLowerHexChar = true →
    (toHexAux fuel n acc).all isLowerHexChar = true := by
  intro fuel
  induction fuel with
  | zero => intro n acc h; simpa [toHexAux] using h
  | succ fuel ih =>
    intro n acc h
    unfold toHexAux
    by_cases hn : n = 0
    · simp [hn, h]
    · rw [if_neg hn]
      refine ih (n / 16) _ ?_
      simp [List.all_cons, h, hexChar_isHex (n % 16) (Nat.mod_lt n (by norm_num))]

theorem hash_all_hex (s : String) : (hash s).data.all isLowerHexChar = true := by
  unfold hash toHex
  by_cases h : fnv1a64 (strBytes s) = 0
  · rw [if_pos h]; decide
  · rw [if_neg h]
    exact toHexAux_hex 16 _ [] rfl

theorem sepAux_colon (l : List Char) : sepAux l = true → ':' ∈ l := by
  induction l with
  | nil => simp [sepAux]
  | cons c rest ih =>
    intro h
    simp only [sepAux, Bool.or_eq_true, Bool.and_eq_true, beq_iff_eq] at h
    rcases h with ⟨hc, _⟩ | h
    · simp [hc]
    · exact List.mem_cons_of_mem _ (ih h)

theorem hash_no_sep (s : String) : hasSchemeSep (hash s) = false := by
  unfold hasSchemeSep
  by_contra hff
  have h' : sepAux (hash s).data = true := by
    cases h0 : sepAux (hash s).data with
    | false => exact absurd h0 hff
    | true => rfl
  have hc : ':' ∈ (hash s).data := sepAux_colon _ h'
  have hall := hash_all_hex s
  rw [List.all_eq_true] at hall
  exact absurd (hall _ hc) (by decide)

/-! ### Claims -/

/-- C1 (counterexample): the legacy cookie `http://John%20Doe@10.10.10.10/`
parses with user-info `John Doe`, the pool candidate `urlA` carries no
user-info, yet resolution returns that candidate — the legacy branch does
not require user-info equality, contrary to the claim. -/
theorem C1_legacy_userinfo_counterexample :
    urlParse "http://John%20Doe@10.10.10.10/" = .ok urlAUser ∧
    urlAUser.user = some { username := "John Doe", password := none } ∧
    urlA.user = none ∧
    stickyS.getBackendURL "http://John%20Doe@10.10.10.10/" [urlA] = some urlA :=
  ⟨rfl, rfl, rfl, rfl⟩

/-- C1 (amended): in the legacy raw-address branch the resolver scans the
pool in order and returns the first candidate whose scheme, host and path
structurally equal the parsed legacy value; user-info is not compared. -/
theorem C1_legacy_match_ignores_userinfo (s : StickySession) (needle : String)
    (haystack : List URL) (nu : URL)
    (hsep : hasSchemeSep needle = true)
    (hparse : urlParse needle = .ok nu) :
    s.getBackendURL needle haystack
      = haystack.find? (fun srv =>
          nu.path == srv.path && nu.host == srv.host && nu.scheme == srv.scheme) := by
  by_cases hl : haystack.length = 0
  · have h0 : haystack = [] := List.length_eq_zero.mp hl
    subst h0
    simp [StickySession.getBackendURL]
  · simp [StickySession.getBackendURL, hl, hsep, hparse, sameURL]

/-- C1 (witness): at the repository's own test fixture — legacy cookie
with user-info `John Doe`, pool holding the same address without
user-info — the resolver behaves as the first-match scan on scheme, host
and path. -/
theorem C1_legacy_match_ignores_userinfo_witness :
    stickyS.getBackendURL "http://John%20Doe@10.10.10.10/" [urlA]
      = [urlA].find? (fun srv =>
          urlAUser.path == srv.path && urlAUser.host == srv.host &&
            urlAUser.scheme == srv.scheme) :=
  C1_legacy_match_ignores_userinfo stickyS "http://John%20Doe@10.10.10.10/"
    [urlA] urlAUser rfl rfl

/-- C2: sticking backend `A` writes a cookie whose value, presented back
in a request against the pool `[A, B]`, resolves to `A` with
`matched = true` and no error. -/
theorem C2_round_trip (s : StickySession) (A B : URL) (req : Request) (v : String)
    (hw : (s.StickBackend A []).map Cookie.value = [v])
    (hr : req.getCookie s.cookieName = .ok v) :
    s.GetBackend req [A, B] = (some A, true, none) := by
  have hv : v = hash (urlString (getCleanServerURL A)) := by
    simp [StickySession.StickBackend, SetCookie] at hw
    exact hw.symm
  subst hv
  unfold StickySession.GetBackend
  rw [hr]
  simp [StickySession.getBackendURL, hash_no_sep, List.find?]

/-- C2 (witness): concrete round trip for the pool `[urlA, urlB]`. -/
theorem C2_round_trip_witness :
    stickyS.GetBackend reqHashA [urlA, urlB] = (some urlA, true, none) :=
  C2_round_trip stickyS urlA urlB reqHashA
    (hash (urlString (getCleanServerURL urlA))) rfl rfl

/-- C3: an absent cookie yields `(none, false, none)`; any other cookie
read error is propagated as `(none, false, some e)`; and a non-`none`
error component can only arise from such a read error. -/
theorem C3_cookie_read (s : StickySession) (req : Request) (servers : List URL) :
    (req.getCookie s.cookieName = .error .errNoCookie →
        s.GetBackend req servers = (none, false, none)) ∧
    (∀ e : CookieError, e ≠ .errNoCookie →
        req.getCookie s.cookieName = .error e →
        s.GetBackend req servers = (none, false, some e)) ∧
    (∀ e : CookieError, (s.GetBackend req servers).2.2 = some e →
        req.getCookie s.cookieName = .error e ∧ e ≠ .errNoCookie) := by
  refine ⟨fun hc => ?_, fun e he hc => ?_, fun e he => ?_⟩
  · unfold StickySession.GetBackend
    rw [hc]
  · unfold StickySession.GetBackend
    rw [hc]
    cases e with
    | errNoCookie => exact absurd rfl he
    | other msg => rfl
  · unfold StickySession.GetBackend at he
    cases h : req.getCookie s.cookieName with
    | ok v => rw [h] at he; simp at he
    | error e2 =>
      rw [h] at he
      cases e2 with
      | errNoCookie => simp at he
      | other msg =>
        simp at he
        subst he
        exact ⟨rfl, by simp⟩

/-- C3 (witness): concrete absent-cookie and failing-read requests. -/
theorem C3_cookie_read_witness :
    stickyS.GetBackend reqNoCookie [] = (none, false, none) ∧
    stickyS.GetBackend reqReadErr [] = (none, false, some (.other "read failure")) :=
  ⟨(C3_cookie_read stickyS reqNoCookie []).1 rfl,
   (C3_cookie_read stickyS reqReadErr []).2.1 (.other "read failure") (by decide) rfl⟩

/-- C4: with a present cookie the error component is always `none`; when
resolution finds no candidate the whole result is `(none, false, none)`;
an empty pool never matches; and a legacy value that fails to parse never
matches. -/
theorem C4_no_match_is_benign (s : StickySession) (value : String)
    (servers : List URL) (req : Request)
    (hreq : req.getCookie s.cookieName = .ok value) :
    (s.GetBackend req servers).2.2 = none ∧
    (s.getBackendURL value servers = none →
        s.GetBackend req servers = (none, false, none)) ∧
    (servers = [] → s.getBackendURL value servers = none) ∧
    (hasSchemeSep value = true → (∃ e, urlParse value = .error e) →
        s.getBackendURL value servers = none) := by
  refine ⟨?_, fun h => ?_, fun h0 => ?_, fun hsep hpe => ?_⟩
  · unfold StickySession.GetBackend
    rw [hreq]
  · unfold StickySession.GetBackend
    rw [hreq]
    simp [h]
  · subst h0
    simp [StickySession.getBackendURL]
  · obtain ⟨e, he⟩ := hpe
    by_cases hl : servers.length = 0
    · simp [StickySession.getBackendURL, hl]
    · simp [StickySession.getBackendURL, hl, hsep, he]

/-- C4 (witness): the malformed legacy cookie `://bad` (which holds the
delimiter but fails to parse) against a non-empty pool yields
`(none, false, none)`. -/
theorem C4_no_match_is_benign_witness :
    stickyS.GetBackend (reqWith "://bad") [urlA] = (none, false, none) :=
  (C4_no_match_is_benign stickyS "://bad" [urlA] (reqWith "://bad") rfl).2.1 rfl

/-- C5: credential independence — dropping or changing the user-info of
an address leaves its token unchanged; in particular the parsed addresses
`http://user@host/path` and `http://host/path` hash to the same token. -/
theorem C5_credential_independence :
    (∀ (u : URL) (ui : Option Userinfo),
        hash (urlString (getCleanServerURL { u with user := ui }))
          = hash (urlString (getCleanServerURL { u with user := none }))) ∧
    (urlParse "http://user@host/path").map
        (fun u => hash (urlString (getCleanServerURL u)))
      = (urlParse "http://host/path").map
        (fun u => hash (urlString (getCleanServerURL u))) := by
  exact ⟨fun u ui => rfl, rfl⟩

/-- C6: normalization copies exactly scheme, host and path and leaves
every other component at its zero value, so two addresses agreeing on
scheme, host and path have the same identity string and the same token. -/
theorem C6_normalize :
    (∀ u : URL, getCleanServerURL u
        = { scheme := u.scheme, host := u.host, path := u.path,
            opaquePart := "", user := none, forceQuery := false,
            rawQuery := "", fragment := "" }) ∧
    (∀ u v : URL, u.scheme = v.scheme → u.host = v.host → u.path = v.path →
        urlString (getCleanServerURL u) = urlString (getCleanServerURL v) ∧
        hash (urlString (getCleanServerURL u))
          = hash (urlString (getCleanServerURL v))) := by
  refine ⟨fun u => rfl, fun u v hs hh hp => ?_⟩
  have hcl : getCleanServerURL u = getCleanServerURL v := by
    unfold getCleanServerURL
    rw [hs, hh, hp]
  exact ⟨by rw [hcl], by rw [hcl]⟩

/-- C6 (witness): an address carrying user-info, a query, a fragment and
`forceQuery` normalizes to the same identity string and token as the bare
address with the same scheme, host and path. -/
theorem C6_normalize_witness :
    urlString (getCleanServerURL urlAFull) = urlString (getCleanServerURL urlA) ∧
    hash (urlString (getCleanServerURL urlAFull))
      = hash (urlString (getCleanServerURL urlA)) :=
  C6_normalize.2 urlAFull urlA rfl rfl rfl

/-- C7: sticking a backend appends exactly one cookie, under the
configured name, valued at the hash of the normalized backend, with path
defaulting to `/` when unconfigured and every other attribute copied from
the options. -/
theorem C7_stick_backend_cookie (s : StickySession) (backend : URL)
    (w : List Cookie) :
    s.StickBackend backend w
      = w ++ [{ name := s.cookieName,
                value := hash (urlString (getCleanServerURL backend)),
                path := if s.options.path = "" then "/" else s.options.path,
                domain := s.options.domain,
                expires := s.options.expires,
                maxAge := s.options.maxAge,
                secure := s.options.secure,
                httpOnly := s.options.httpOnly,
                sameSite := s.options.sameSite }] := by
  unfold StickySession.StickBackend SetCookie
  by_cases h : s.options.path = "" <;> simp [h]

/-- C8: the boolean result of `GetBackend` always equals the presence of
its backend result. -/
theorem C8_matched_iff_some (s : StickySession) (req : Request)
    (servers : List URL) :
    (s.GetBackend req servers).2.1 = (s.GetBackend req servers).1.isSome := by
  unfold StickySession.GetBackend
  cases h : req.getCookie s.cookieName with
  | error e => cases e <;> simp
  | ok v => simp

/-- C9: whenever resolution returns a backend, that backend is an element
of the supplied pool, returned as-is. -/
theorem C9_result_from_pool (s : StickySession) (needle : String)
    (haystack : List URL) (r : URL)
    (h : s.getBackendURL needle haystack = some r) : r ∈ haystack := by
  unfold StickySession.getBackendURL at h
  by_cases hl : haystack.length = 0
  · rw [if_pos hl] at h
    exact absurd h (by simp)
  · rw [if_neg hl] at h
    by_cases hsep : hasSchemeSep needle
    · rw [if_pos hsep] at h
      cases hp : urlParse needle with
      | error e => rw [hp] at h; exact absurd h (by simp)
      | ok nu => rw [hp] at h; exact List.mem_of_find?_eq_some h
    · rw [if_neg hsep] at h
      exact List.mem_of_find?_eq_some h

/-- C9 (witness): the legacy cookie for `urlA` resolves, against the pool
`[urlA, urlB]`, to a member of that pool. -/
theorem C9_result_from_pool_witness : urlA ∈ [urlA, urlB] :=
  C9_result_from_pool stickyS "http://10.10.10.10/" [urlA, urlB] urlA rfl

/-- C10: every hashed token consists only of lowercase hexadecimal
characters and never holds the delimiter `://`, every cookie written by
`StickBackend` is valued at such a token, and the resolver therefore
classifies a hashed token by the hashed-comparison scan, never by the
legacy branch. -/
theorem C10_hash_is_hex_token (input : String) (s : StickySession)
    (backend : URL) (servers : List URL) :
    (hash input).data.all isLowerHexChar = true ∧
    hasSchemeSep (hash input) = false ∧
    (s.StickBackend backend []).map Cookie.value
      = [hash (urlString (getCleanServerURL backend))] ∧
    s.getBackendURL (hash input) servers
      = (if servers.length = 0 then none
         else servers.find? (fun srv =>
           hash input == hash (urlString (getCleanServerURL srv)))) := by
  refine ⟨hash_all_hex input, hash_no_sep input, rfl, ?_⟩
  unfold StickySession.getBackendURL
  rw [hash_no_sep]
  simp

end Oxy
